import Mathlib

/-!
Shallow embedding of the core numeric/geometric logic of the `bird-plot`
repository, together with theorems settling the frozen claims about it.

Source files embedded:
* `src/bird_plot/cli.py` — `process_personality_data` and its nested
  `sigmoid_scale` (dominant-trait boost, axis combination, batch scaling).
* `src/bird_plot/plots/radar.py` — `calculate_angles`, the polar-to-Cartesian
  conversion and `calculate_overlap` (Monte-Carlo intersection-over-union).

Modelling conventions:
* pandas/numpy numbers are modelled with exact arithmetic: trait scores as `ℚ`,
  the integer-cast adjusted scores as `ℤ`, and the transcendental scaling
  (`np.tanh`) over `ℝ`.  IEEE-754 NaN — which the Python code produces when it
  divides by a zero maximum — is modelled explicitly as `none` in an
  `Option ℝ` value; a well-defined float is `some x`.
* Fallible numpy operations (indexing an empty array, `min`/`max` of an empty
  array) are modelled with `Option`, `none` standing for the raised exception.
* The pseudo-random sample drawn by `numpy.random` and the point-in-polygon
  test of the external `matplotlib.path.Path` library are not part of this
  repository; they enter the embedding as explicit parameters (`samples`, the
  list of sampled points, and `contains`, the containment oracle applied to a
  polygon's vertex list).
-/

namespace BirdPlot

/-- One row of the input CSV table: `Name`, `Note` and the four trait scores
(`Dove`, `Owl`, `Peacock`, `Eagle`), as loaded by `load_csv_data`. -/
structure PersonRow where
  name : String
  note : String
  dove : ℚ
  owl : ℚ
  peacock : ℚ
  eagle : ℚ
deriving DecidableEq

/-- The four personality traits, in the column order
`personality_cols = ["Dove", "Owl", "Peacock", "Eagle"]` of `cli.py`. -/
inductive Trait
  | dove
  | owl
  | peacock
  | eagle
deriving DecidableEq

/-- Select a trait score from a row. -/
def PersonRow.trait (r : PersonRow) : Trait → ℚ
  | .dove => r.dove
  | .owl => r.owl
  | .peacock => r.peacock
  | .eagle => r.eagle

/-- numpy `astype(int)` on a finite value: truncation toward zero
(C-style cast), i.e. floor for non-negative values and ceiling for negative
ones. -/
def truncInt (q : ℚ) : ℤ :=
  if 0 ≤ q then ⌊q⌋ else ⌈q⌉

/-- Row maximum `df[personality_cols].max(axis=1)`: the maximum of the four
trait scores. -/
def maxTrait (r : PersonRow) : ℚ :=
  max (max (max r.dove r.owl) r.peacock) r.eagle

/-- The integer-cast adjusted scores of one row (the row of `df_adjusted`). -/
structure AdjustedScores where
  dove : ℤ
  owl : ℤ
  peacock : ℤ
  eagle : ℤ
deriving DecidableEq

/-- Select a trait from the adjusted scores. -/
def AdjustedScores.trait (a : AdjustedScores) : Trait → ℤ
  | .dove => a.dove
  | .owl => a.owl
  | .peacock => a.peacock
  | .eagle => a.eagle

/-- One cell of
`df[cols].where(~df[cols].eq(max_scores, axis=0), df[cols] * 1.2).astype(int)`:
a value equal to the row maximum `m` is multiplied by `1.2 = 6/5` before the
integer cast, any other value is cast unchanged. -/
def adjustValue (m v : ℚ) : ℤ :=
  if v = m then truncInt (v * (6 / 5)) else truncInt v

/-- One row of `df_adjusted` in `process_personality_data`. -/
def adjustRow (r : PersonRow) : AdjustedScores :=
  ⟨adjustValue (maxTrait r) r.dove, adjustValue (maxTrait r) r.owl,
   adjustValue (maxTrait r) r.peacock, adjustValue (maxTrait r) r.eagle⟩

/-- Column `df["X"] = (df_adjusted["Dove"] + df_adjusted["Owl"]) -
(df_adjusted["Peacock"] + df_adjusted["Eagle"])`, for one row. -/
def rawX (a : AdjustedScores) : ℤ :=
  (a.dove + a.owl) - (a.peacock + a.eagle)

/-- Column `df["Y"] = (df_adjusted["Peacock"] + df_adjusted["Dove"]) -
(df_adjusted["Eagle"] + df_adjusted["Owl"])`, for one row. -/
def rawY (a : AdjustedScores) : ℤ :=
  (a.peacock + a.dove) - (a.eagle + a.owl)

/-- Batch maximum `series.abs().max()` for a column of integers (the `X`/`Y` columns are
integer-valued after `astype(int)`).  On an empty column this yields `0`,
which routes `sigmoid_scale` into its NaN (`none`) branch, matching the
undefined float the Python code would propagate. -/
def maxAbsZ (series : List ℤ) : ℤ :=
  (series.map (fun v => |v|)).foldr max 0

/-- The nested `sigmoid_scale` of `process_personality_data`:
`config["chart"]["max_value"] * np.tanh(series / series.abs().max())`.
When the maximum absolute value is `0`, every element of the series is `0`
and the float division `0/0` produces NaN, which `tanh` and the
multiplication propagate; this NaN is modelled as `none`. -/
noncomputable def sigmoid_scale (maxValue : ℝ) (series : List ℤ) : List (Option ℝ) :=
  series.map fun (v : ℤ) =>
    if maxAbsZ series = 0 then none
    else some (maxValue * Real.tanh ((v : ℝ) / (maxAbsZ series : ℝ)))

/-- A row of the table returned by `process_personality_data`: the original
columns plus the scaled `X` and `Y` columns (float cells, `none` = NaN). -/
structure ProcessedRow where
  name : String
  note : String
  dove : ℚ
  owl : ℚ
  peacock : ℚ
  eagle : ℚ
  x : Option ℝ
  y : Option ℝ

/-- Reassemble an output row from an input row and its `(X, Y)` pair. -/
def buildRow (p : PersonRow × (Option ℝ × Option ℝ)) : ProcessedRow :=
  ⟨p.1.name, p.1.note, p.1.dove, p.1.owl, p.1.peacock, p.1.eagle,
   p.2.1, p.2.2⟩

/-- The original six columns of a processed row. -/
def ProcessedRow.original (p : ProcessedRow) : PersonRow :=
  ⟨p.name, p.note, p.dove, p.owl, p.peacock, p.eagle⟩

/-- Function `process_personality_data` of `cli.py`, starting from the already-loaded
table (file I/O is peripheral): build `df_adjusted`, compute the raw `X`/`Y`
columns, scale each column with `sigmoid_scale`, and return the table with
the two new columns attached. -/
noncomputable def process_personality_data (maxValue : ℝ) (rows : List PersonRow) :
    List ProcessedRow :=
  let adjusted := rows.map adjustRow
  let xs := sigmoid_scale maxValue (adjusted.map rawX)
  let ys := sigmoid_scale maxValue (adjusted.map rawY)
  (rows.zip (xs.zip ys)).map buildRow

/-- Function `calculate_angles` of `plots/radar.py`:
`angles = np.linspace(-np.pi/4, 2*np.pi - np.pi/4, num_categories,
endpoint=False)`, i.e. angle `i` is `-π/4 + 2·π·i/n`; then the first angle
and the first value are appended at the end.  `angles[0]` (resp.
`values_array[0]`) raises `IndexError` on an empty array; the raised
exception is modelled as `none`. -/
noncomputable def calculate_angles (categories : List String) (values : List ℝ) :
    Option (List ℝ × List ℝ) :=
  let n := categories.length
  match (List.range n).map (fun (i : ℕ) =>
      -(Real.pi / 4) + 2 * Real.pi * (i : ℝ) / (n : ℝ)), values with
  | a0 :: as0, v0 :: vs => some ((a0 :: as0) ++ [a0], (v0 :: vs) ++ [v0])
  | _, _ => none

/-- Polar-to-Cartesian conversion of `calculate_overlap` (and `plot`):
`x = np.cos(angles) * values`, `y = np.sin(angles) * values`, element-wise. -/
noncomputable def toCartesian (angles values : List ℝ) : List (ℝ × ℝ) :=
  List.zipWith (fun a v => (Real.cos a * v, Real.sin a * v)) angles values

/-- Array minimum `np.ndarray.min()`: `none` on an empty array (numpy raises). -/
noncomputable def listMin : List ℝ → Option ℝ
  | [] => none
  | h :: t => some (t.foldr min h)

/-- Array maximum `np.ndarray.max()`: `none` on an empty array (numpy raises). -/
noncomputable def listMax : List ℝ → Option ℝ
  | [] => none
  | h :: t => some (t.foldr max h)

/-- The bounding box `bbox = [min(x1.min(), x2.min()), max(x1.max(), x2.max()),
min(y1.min(), y2.min()), max(y1.max(), y2.max())]` of `calculate_overlap`. -/
structure BBox where
  xmin : ℝ
  xmax : ℝ
  ymin : ℝ
  ymax : ℝ

/-- Membership of a point in a bounding box (the region
`rng.uniform(bbox[0], bbox[1]) × rng.uniform(bbox[2], bbox[3])` samples
from). -/
def inBBox (b : BBox) (p : ℝ × ℝ) : Prop :=
  b.xmin ≤ p.1 ∧ p.1 ≤ b.xmax ∧ b.ymin ≤ p.2 ∧ p.2 ≤ b.ymax

/-- The combined bounding box of the two polygons of `calculate_overlap`. -/
noncomputable def overlapBBox (pts1 pts2 : List (ℝ × ℝ)) : Option BBox :=
  match listMin (pts1.map Prod.fst), listMax (pts1.map Prod.fst),
        listMin (pts2.map Prod.fst), listMax (pts2.map Prod.fst),
        listMin (pts1.map Prod.snd), listMax (pts1.map Prod.snd),
        listMin (pts2.map Prod.snd), listMax (pts2.map Prod.snd) with
  | some x1m, some x1M, some x2m, some x2M,
    some y1m, some y1M, some y2m, some y2M =>
      some ⟨min x1m x2m, max x1M x2M, min y1m y2m, max y1M y2M⟩
  | _, _, _, _, _, _, _, _ => none

/-- The number of points the real code samples: `points = 10000`. -/
def samplePoints : ℕ := 10000

/-- Function `calculate_overlap` of `plots/radar.py`.  `contains pts p` is the
point-in-polygon test `matplotlib.path.Path(pts).contains_points([p])` of the
external plotting library, and `samples` is the outcome of the 10,000
uniform draws of `rng.uniform` inside the bounding box — both are inputs of
the embedding because they live outside this repository.  The result is
`(intersection / union) * 100 if union > 0 else 0`; `none` models the
exception numpy raises while building the bounding box of empty polygons. -/
noncomputable def calculate_overlap (contains : List (ℝ × ℝ) → ℝ × ℝ → Bool)
    (values1 values2 angles : List ℝ) (samples : List (ℝ × ℝ)) : Option ℝ :=
  let pts1 := toCartesian angles values1
  let pts2 := toCartesian angles values2
  (overlapBBox pts1 pts2).map fun _ =>
    let intersection := samples.countP fun p => contains pts1 p && contains pts2 p
    let union := samples.countP fun p => contains pts1 p || contains pts2 p
    if 0 < union then ((intersection : ℝ) / (union : ℝ)) * 100 else 0

/-- The single record of end-to-end scenario 1 of the specification. -/
def rowA : PersonRow :=
  ⟨"A", "", 10, 10, 0, 0⟩

/-- The all-zero-score record set of size 3 of end-to-end scenario 2. -/
def zeroRows3 : List PersonRow :=
  [⟨"A", "", 0, 0, 0, 0⟩, ⟨"B", "", 0, 0, 0, 0⟩, ⟨"C", "", 0, 0, 0, 0⟩]

/-! ## Helper lemmas -/

lemma maxAbsZ_cons (a : ℤ) (t : List ℤ) : maxAbsZ (a :: t) = max |a| (maxAbsZ t) :=
  rfl

lemma maxAbsZ_nonneg (s : List ℤ) : 0 ≤ maxAbsZ s := by
  induction s with
  | nil => exact le_refl 0
  | cons a t ih => rw [maxAbsZ_cons]; exact le_trans ih (le_max_right _ _)

lemma abs_le_maxAbsZ {v : ℤ} {s : List ℤ} (h : v ∈ s) : |v| ≤ maxAbsZ s := by
  induction s with
  | nil => cases h
  | cons a t ih =>
      rw [maxAbsZ_cons]
      rcases List.mem_cons.mp h with h1 | h1
      · exact h1 ▸ le_max_left _ _
      · exact le_trans (ih h1) (le_max_right _ _)

lemma maxAbsZ_replicate_zero (n : ℕ) : maxAbsZ (List.replicate n (0 : ℤ)) = 0 := by
  induction n with
  | zero => rfl
  | succ m ih => rw [List.replicate_succ, maxAbsZ_cons, ih]; simp

lemma sigmoid_scale_all_zero (mv : ℝ) (n : ℕ) :
    sigmoid_scale mv (List.replicate n 0) = List.replicate n none := by
  simp [sigmoid_scale, maxAbsZ_replicate_zero]

lemma sigmoid_scale_length (mv : ℝ) (series : List ℤ) :
    (sigmoid_scale mv series).length = series.length := by
  simp only [sigmoid_scale, List.length_map]

lemma map_build_original :
    ∀ (rs : List PersonRow) (xs ys : List (Option ℝ)),
      rs.length = xs.length → rs.length = ys.length →
      ((rs.zip (xs.zip ys)).map buildRow).map ProcessedRow.original = rs
  | [], _, _, _, _ => rfl
  | _ :: _, [], _, hx, _ => by cases hx
  | _ :: _, _ :: _, [], _, hy => by cases hy
  | r :: rs, x :: xs, y :: ys, hx, hy => by
      simp only [List.zip_cons_cons, List.map_cons, List.cons.injEq]
      exact ⟨rfl, map_build_original rs xs ys (Nat.succ_injective hx) (Nat.succ_injective hy)⟩

lemma map_build_x :
    ∀ (rs : List PersonRow) (xs ys : List (Option ℝ)),
      rs.length = xs.length → rs.length = ys.length →
      ((rs.zip (xs.zip ys)).map buildRow).map ProcessedRow.x = xs
  | [], [], _, _, _ => rfl
  | [], _ :: _, _, hx, _ => by cases hx
  | _ :: _, [], _, hx, _ => by cases hx
  | _ :: _, _ :: _, [], _, hy => by cases hy
  | r :: rs, x :: xs, y :: ys, hx, hy => by
      simp only [List.zip_cons_cons, List.map_cons, List.cons.injEq]
      exact ⟨rfl, map_build_x rs xs ys (Nat.succ_injective hx) (Nat.succ_injective hy)⟩

lemma map_build_y :
    ∀ (rs : List PersonRow) (xs ys : List (Option ℝ)),
      rs.length = xs.length → rs.length = ys.length →
      ((rs.zip (xs.zip ys)).map buildRow).map ProcessedRow.y = ys
  | [], _, [], _, _ => rfl
  | [], _, _ :: _, _, hy => by cases hy
  | _ :: _, [], _, hx, _ => by cases hx
  | _ :: _, _ :: _, [], _, hy => by cases hy
  | r :: rs, x :: xs, y :: ys, hx, hy => by
      simp only [List.zip_cons_cons, List.map_cons, List.cons.injEq]
      exact ⟨rfl, map_build_y rs xs ys (Nat.succ_injective hx) (Nat.succ_injective hy)⟩

/-- The `X` column of the processed table is the scaled raw-`X` column. -/
lemma process_x_column (mv : ℝ) (rows : List PersonRow) :
    (process_personality_data mv rows).map ProcessedRow.x =
      sigmoid_scale mv ((rows.map adjustRow).map rawX) := by
  apply map_build_x
  · simp [sigmoid_scale_length]
  · simp [sigmoid_scale_length]

/-- The `Y` column of the processed table is the scaled raw-`Y` column. -/
lemma process_y_column (mv : ℝ) (rows : List PersonRow) :
    (process_personality_data mv rows).map ProcessedRow.y =
      sigmoid_scale mv ((rows.map adjustRow).map rawY) := by
  apply map_build_y
  · simp [sigmoid_scale_length]
  · simp [sigmoid_scale_length]

/-! ## Claim theorems -/

/-- C1 — the claim says `sigmoid_scale` on an all-zero series returns all
zeros and an all-zero batch projects to `X = Y = 0`.  The code instead divides
by the zero maximum: `0 / 0` is NaN (`none`), which `tanh` and the
multiplication propagate, so every element of the output — and every
projected coordinate of the all-zero batch of three records — is NaN, not
`0`.  This contradicts the specification's required special case and the
repository's own test `test_sigmoid_scale_zero_series_returns_zero`. -/
theorem C1_zero_series_yields_nan (mv : ℝ) (n : ℕ) :
    sigmoid_scale mv (List.replicate n 0) = List.replicate n none ∧
    (process_personality_data mv zeroRows3).map ProcessedRow.x = [none, none, none] ∧
    (process_personality_data mv zeroRows3).map ProcessedRow.y = [none, none, none] := by
  have hadj : (zeroRows3.map adjustRow).map rawX = [0, 0, 0] ∧
      (zeroRows3.map adjustRow).map rawY = [0, 0, 0] := by
    constructor <;>
      norm_num [zeroRows3, adjustRow, adjustValue, maxTrait, truncInt, rawX, rawY]
  refine ⟨sigmoid_scale_all_zero mv n, ?_, ?_⟩
  · rw [process_x_column, hadj.1]
    simpa using sigmoid_scale_all_zero mv 3
  · rw [process_y_column, hadj.2]
    simpa using sigmoid_scale_all_zero mv 3

/-- C2 — per-record dominant-trait boost and axis combination: `maxTrait` is
an upper bound attained by some trait; every trait equal to it is multiplied
by `1.2 = 6/5` and truncated toward zero, every trait strictly below it is
kept and truncated toward zero unchanged; and the raw coordinates are the
fixed contrasts `rawX = (Dove + Owl) − (Peacock + Eagle)`,
`rawY = (Peacock + Dove) − (Eagle + Owl)` over the adjusted scores. -/
theorem C2_dominant_boost_and_axes (r : PersonRow) :
    (∀ t : Trait, r.trait t ≤ maxTrait r) ∧
    (∃ t : Trait, r.trait t = maxTrait r) ∧
    (∀ t : Trait, r.trait t = maxTrait r →
      (adjustRow r).trait t = truncInt (r.trait t * (6 / 5))) ∧
    (∀ t : Trait, r.trait t < maxTrait r →
      (adjustRow r).trait t = truncInt (r.trait t)) ∧
    rawX (adjustRow r) =
      ((adjustRow r).dove + (adjustRow r).owl) -
        ((adjustRow r).peacock + (adjustRow r).eagle) ∧
    rawY (adjustRow r) =
      ((adjustRow r).peacock + (adjustRow r).dove) -
        ((adjustRow r).eagle + (adjustRow r).owl) := by
  refine ⟨?_, ?_, ?_, ?_, rfl, rfl⟩
  · intro t
    cases t <;> simp [PersonRow.trait, maxTrait, le_max_iff]
  · rcases max_choice (max (max r.dove r.owl) r.peacock) r.eagle with h1 | h1
    · rcases max_choice (max r.dove r.owl) r.peacock with h2 | h2
      · rcases max_choice r.dove r.owl with h3 | h3
        · exact ⟨Trait.dove, (h1.trans (h2.trans h3)).symm⟩
        · exact ⟨Trait.owl, (h1.trans (h2.trans h3)).symm⟩
      · exact ⟨Trait.peacock, (h1.trans h2).symm⟩
    · exact ⟨Trait.eagle, h1.symm⟩
  · intro t ht
    cases t <;>
      simp_all [PersonRow.trait, AdjustedScores.trait, adjustRow, adjustValue]
  · intro t ht
    cases t <;>
      simp only [adjustRow, AdjustedScores.trait, adjustValue,
        PersonRow.trait] at ht ⊢ <;>
      rw [if_neg (ne_of_lt ht)]

/-- Witness for C2 at the concrete record of scenario 1: `Dove = 10` attains
the maximum, so the adjusted Dove score is the truncation of `10 * 1.2`. -/
theorem C2_witness :
    rowA.trait Trait.dove = maxTrait rowA ∧
    (adjustRow rowA).trait Trait.dove = truncInt (rowA.trait Trait.dove * (6 / 5)) :=
  ⟨by decide, (C2_dominant_boost_and_axes rowA).2.2.1 Trait.dove (by decide)⟩

/-- C5 — the claim says `calculate_angles` on empty inputs degenerates to an
empty polygon without crashing.  The code instead evaluates `angles[0]` on an
empty array, which raises `IndexError` (modelled as `none`): there is no
result at all, rather than a pair of empty sequences. -/
theorem C5_empty_input_raises : calculate_angles [] [] = none := rfl

/-- C3 — the Scaling Transform maps every element `v` of a series with a
non-zero element to exactly `max_value * tanh(v / max |series|)`, and the
projector applies it to the whole raw-`X` column and the whole raw-`Y`
column separately, each with its own batch maximum. -/
theorem C3_scaling_formula (mv : ℝ) (series : List ℤ)
    (h : ∃ v ∈ series, v ≠ 0) :
    sigmoid_scale mv series =
      series.map (fun (v : ℤ) =>
        some (mv * Real.tanh ((v : ℝ) / (maxAbsZ series : ℝ)))) ∧
    (∀ rows : List PersonRow,
      (process_personality_data mv rows).map ProcessedRow.x =
        sigmoid_scale mv ((rows.map adjustRow).map rawX)) ∧
    (∀ rows : List PersonRow,
      (process_personality_data mv rows).map ProcessedRow.y =
        sigmoid_scale mv ((rows.map adjustRow).map rawY)) := by
  have hm : maxAbsZ series ≠ 0 := by
    obtain ⟨v, hv, hvne⟩ := h
    have h1 : |v| ≤ maxAbsZ series := abs_le_maxAbsZ hv
    have h2 : 0 < |v| := abs_pos.mpr hvne
    omega
  exact ⟨by simp [sigmoid_scale, hm], process_x_column mv, process_y_column mv⟩

/-- Witness for C3 at the concrete series `[24]` (the raw-`X` column of
scenario 1). -/
theorem C3_witness :
    (∃ v ∈ ([24] : List ℤ), v ≠ 0) ∧
    sigmoid_scale 25 [24] =
      ([24] : List ℤ).map (fun (v : ℤ) =>
        some ((25 : ℝ) * Real.tanh ((v : ℝ) / (maxAbsZ [24] : ℝ)))) :=
  ⟨⟨24, by decide⟩, (C3_scaling_formula 25 [24] ⟨24, by decide⟩).1⟩

/-- The successful branch of `calculate_angles`: with at least one category
and a non-empty value list, the angles are `-π/4 + 2·π·i/n` for `i < n`,
followed by the first angle again, and the values are closed with the first
value. -/
lemma calculate_angles_eq (categories : List String) (v0 : ℝ) (vs : List ℝ)
    (hn : 1 ≤ categories.length) :
    calculate_angles categories (v0 :: vs) =
      some ((((List.range categories.length).map fun (i : ℕ) =>
            -(Real.pi / 4) + 2 * Real.pi * (i : ℝ) / (categories.length : ℝ)) ++
          [-(Real.pi / 4)]),
        (v0 :: vs) ++ [v0]) := by
  obtain ⟨m, hm⟩ : ∃ m, categories.length = m + 1 :=
    ⟨categories.length - 1, by omega⟩
  simp only [calculate_angles, hm, List.range_succ_eq_map, List.map_cons]
  norm_num

/-- C4 — for `N ≥ 1` categories and matching magnitudes, `calculate_angles`
returns `N + 1` angles and `N + 1` magnitudes: the first `N` angles are
`-π/4 + 2·π·i/N`, the last angle equals the first and the last magnitude
equals the first, so the pairs describe a closed polygon (length `5` for
`N = 4`). -/
theorem C4_closed_polygon (categories : List String) (values : List ℝ)
    (hn : 1 ≤ categories.length) (hv : values.length = categories.length) :
    ∃ A V, calculate_angles categories values = some (A, V) ∧
      A.length = categories.length + 1 ∧
      V.length = categories.length + 1 ∧
      (∀ i : ℕ, i < categories.length →
        A.get? i = some (-(Real.pi / 4) +
          2 * Real.pi * (i : ℝ) / (categories.length : ℝ))) ∧
      A.getLast? = A.head? ∧
      V.getLast? = V.head? := by
  obtain ⟨m, hm⟩ : ∃ m, categories.length = m + 1 :=
    ⟨categories.length - 1, by omega⟩
  cases values with
  | nil => simp at hv; omega
  | cons v0 vs =>
    refine ⟨_, _, calculate_angles_eq categories v0 vs hn, ?_, ?_, ?_, ?_, ?_⟩
    · simp
    · simp at hv ⊢
      omega
    · intro i hi
      rw [List.get?_append (by simpa using hi), List.get?_map,
        List.get?_range hi]
      rfl
    · rw [List.getLast?_concat]
      rw [hm, List.range_succ_eq_map, List.map_cons, List.cons_append,
        List.head?_cons]
      norm_num
    · rw [List.getLast?_concat, List.cons_append, List.head?_cons]

/-- Witness for C4 with the four real categories and magnitudes `1, 2, 3, 4`:
both returned arrays have length `5`. -/
theorem C4_witness :
    1 ≤ (["Owl", "Dove", "Peacock", "Eagle"] : List String).length ∧
    ∃ A V, calculate_angles ["Owl", "Dove", "Peacock", "Eagle"]
        [(1 : ℝ), 2, 3, 4] = some (A, V) ∧
      A.length = (["Owl", "Dove", "Peacock", "Eagle"] : List String).length + 1 ∧
      V.length = (["Owl", "Dove", "Peacock", "Eagle"] : List String).length + 1 ∧
      (∀ i : ℕ, i < (["Owl", "Dove", "Peacock", "Eagle"] : List String).length →
        A.get? i = some (-(Real.pi / 4) + 2 * Real.pi * (i : ℝ) /
          ((["Owl", "Dove", "Peacock", "Eagle"] : List String).length : ℝ))) ∧
      A.getLast? = A.head? ∧
      V.getLast? = V.head? :=
  ⟨by decide,
    C4_closed_polygon ["Owl", "Dove", "Peacock", "Eagle"] [(1 : ℝ), 2, 3, 4]
      (by decide) rfl⟩

/-- The adjusted scores of the scenario-1 record: both tied maxima `10` are
boosted to `⌊10 * 1.2⌋ = 12`, the two zeros are kept. -/
lemma adjustRow_rowA : adjustRow rowA = ⟨12, 12, 0, 0⟩ := by
  have hmax : maxTrait rowA = 10 := by decide
  rw [adjustRow, hmax]
  norm_num [adjustValue, truncInt, rowA]

/-- The raw coordinates of the scenario-1 record: `rawX = 24` and — because
both tied maxima are boosted — `rawY = (0 + 12) − (0 + 12) = 0`. -/
lemma raw_rowA : rawX (adjustRow rowA) = 24 ∧ rawY (adjustRow rowA) = 0 := by
  rw [adjustRow_rowA]
  constructor <;> decide

/-- The scaled `X` column of the singleton scenario-1 batch. -/
lemma process_rowA_x (mv : ℝ) :
    (process_personality_data mv [rowA]).map ProcessedRow.x =
      [some (mv * Real.tanh 1)] := by
  rw [process_x_column]
  have h : (([rowA].map adjustRow).map rawX) = [24] := by
    simp [raw_rowA.1]
  rw [h]
  have hm24 : maxAbsZ [24] = 24 := by decide
  norm_num [sigmoid_scale, hm24]

/-- The scaled `Y` column of the singleton scenario-1 batch: the raw column
is `[0]`, whose maximum absolute value is `0`, so the `0/0` division makes
the projected `Y` NaN. -/
lemma process_rowA_y (mv : ℝ) :
    (process_personality_data mv [rowA]).map ProcessedRow.y = [none] := by
  rw [process_y_column]
  have h : (([rowA].map adjustRow).map rawY) = [0] := by
    simp [raw_rowA.2]
  rw [h]
  simpa using sigmoid_scale_all_zero mv 1

/-- Two-sided bound on `tanh 1`, the scaled magnitude of scenario 1. -/
lemma tanh_one_bounds : (0.7615 : ℝ) < Real.tanh 1 ∧ Real.tanh 1 < 0.7617 := by
  have e0 : (0 : ℝ) < Real.exp 1 := Real.exp_pos 1
  have i0 : (0 : ℝ) < (Real.exp 1)⁻¹ := inv_pos.mpr e0
  have hei : Real.exp 1 * (Real.exp 1)⁻¹ = 1 := mul_inv_cancel₀ (ne_of_gt e0)
  have e1 : (2.7182818283 : ℝ) < Real.exp 1 := Real.exp_one_gt_d9
  have e2 : Real.exp 1 < 2.7182818286 := Real.exp_one_lt_d9
  have hden : (0 : ℝ) < (Real.exp 1 + (Real.exp 1)⁻¹) / 2 := by positivity
  rw [Real.tanh_eq_sinh_div_cosh, Real.sinh_eq, Real.cosh_eq, Real.exp_neg]
  constructor
  · rw [lt_div_iff hden]
    nlinarith [mul_pos e0 i0, mul_pos i0 i0, sq_nonneg (Real.exp 1 - 2.7182818283)]
  · rw [div_lt_iff hden]
    nlinarith [mul_pos e0 i0, mul_pos i0 i0, mul_lt_mul_of_pos_left e2 e0]

/-- C9 (counterexample) — the claim asserts the projected `Y` of the
scenario-1 record equals `max_value * tanh 1`; with `max_value = 25` the code
instead produces NaN for `Y`, because `rawY = 0` and the batch maximum of the
`Y` column is `0`. -/
theorem C9_counterexample :
    (process_personality_data 25 [rowA]).map ProcessedRow.y ≠
      [some ((25 : ℝ) * Real.tanh 1)] := by
  rw [process_rowA_y 25]
  simp

/-- C9 (amended) — scenario 1: both tied maxima are boosted to `12`, giving
`rawX = 24` and `X = max_value * tanh(24 / 24) = max_value * tanh 1`
(`tanh 1 ≈ 0.7616`); but `rawY = (0 + 12) − (0 + 12) = 0`, so the `Y` column
is all-zero and the projected `Y` is NaN, not `max_value * tanh 1`. -/
theorem C9_scenario_one_amended (mv : ℝ) :
    rawX (adjustRow rowA) = 24 ∧
    rawY (adjustRow rowA) = 0 ∧
    (process_personality_data mv [rowA]).map ProcessedRow.x =
      [some (mv * Real.tanh 1)] ∧
    (process_personality_data mv [rowA]).map ProcessedRow.y = [none] ∧
    (0.7615 : ℝ) < Real.tanh 1 ∧ Real.tanh 1 < 0.7617 :=
  ⟨raw_rowA.1, raw_rowA.2, process_rowA_x mv, process_rowA_y mv,
    tanh_one_bounds⟩

/-- C10 — `process_personality_data` returns the table with the six original
columns of every row unchanged: the boost and truncation happen only on the
intermediate `df_adjusted` used to compute the added `X`/`Y` columns. -/
theorem C10_original_columns_preserved (mv : ℝ) (rows : List PersonRow) :
    (process_personality_data mv rows).map ProcessedRow.original = rows := by
  apply map_build_original <;> simp [sigmoid_scale_length]

/-! ## Overlap estimator lemmas -/

lemma foldr_min_le : ∀ (t : List ℝ) (h x : ℝ), x ∈ h :: t → t.foldr min h ≤ x
  | [], h, x, hx => by
      rcases List.mem_cons.mp hx with rfl | h1
      · exact le_refl x
      · cases h1
  | a :: t, h, x, hx => by
      rcases List.mem_cons.mp hx with rfl | h1
      · exact le_trans (min_le_right _ _) (foldr_min_le t x x (by simp))
      · rcases List.mem_cons.mp h1 with rfl | h2
        · exact min_le_left _ _
        · exact le_trans (min_le_right _ _)
            (foldr_min_le t h x (List.mem_cons_of_mem _ h2))

lemma le_foldr_max : ∀ (t : List ℝ) (h x : ℝ), x ∈ h :: t → x ≤ t.foldr max h
  | [], h, x, hx => by
      rcases List.mem_cons.mp hx with rfl | h1
      · exact le_refl x
      · cases h1
  | a :: t, h, x, hx => by
      rcases List.mem_cons.mp hx with rfl | h1
      · exact le_trans (le_foldr_max t x x (by simp)) (le_max_right _ _)
      · rcases List.mem_cons.mp h1 with rfl | h2
        · exact le_max_left _ _
        · exact le_trans (le_foldr_max t h x (List.mem_cons_of_mem _ h2))
            (le_max_right _ _)

lemma listMin_le {l : List ℝ} {m x : ℝ} (hm : listMin l = some m) (hx : x ∈ l) :
    m ≤ x := by
  cases l with
  | nil => cases hx
  | cons a t =>
      simp only [listMin, Option.some.injEq] at hm
      exact hm ▸ foldr_min_le t a x hx

lemma le_listMax {l : List ℝ} {m x : ℝ} (hm : listMax l = some m) (hx : x ∈ l) :
    x ≤ m := by
  cases l with
  | nil => cases hx
  | cons a t =>
      simp only [listMax, Option.some.injEq] at hm
      exact hm ▸ le_foldr_max t a x hx

/-- The combined bounding box spans both polygons: every vertex of either
polygon lies inside it. -/
lemma overlapBBox_spec : ∀ (pts1 pts2 : List (ℝ × ℝ)) (bb : BBox),
    overlapBBox pts1 pts2 = some bb →
    (∀ p ∈ pts1, inBBox bb p) ∧ (∀ p ∈ pts2, inBBox bb p)
  | [], pts2, bb, h => by simp [overlapBBox, listMin] at h
  | p :: ps, [], bb, h => by simp [overlapBBox, listMin, listMax] at h
  | p :: ps, q :: qs, bb, h => by
      simp only [overlapBBox, listMin, listMax, List.map_cons,
        Option.some.injEq] at h
      subst h
      constructor
      · intro r hr
        have hx : r.1 ∈ p.1 :: ps.map Prod.fst := by
          simpa using List.mem_map_of_mem Prod.fst hr
        have hy : r.2 ∈ p.2 :: ps.map Prod.snd := by
          simpa using List.mem_map_of_mem Prod.snd hr
        exact ⟨le_trans (min_le_left _ _) (foldr_min_le _ _ _ hx),
          le_trans (le_foldr_max _ _ _ hx) (le_max_left _ _),
          le_trans (min_le_left _ _) (foldr_min_le _ _ _ hy),
          le_trans (le_foldr_max _ _ _ hy) (le_max_left _ _)⟩
      · intro r hr
        have hx : r.1 ∈ q.1 :: qs.map Prod.fst := by
          simpa using List.mem_map_of_mem Prod.fst hr
        have hy : r.2 ∈ q.2 :: qs.map Prod.snd := by
          simpa using List.mem_map_of_mem Prod.snd hr
        exact ⟨le_trans (min_le_right _ _) (foldr_min_le _ _ _ hx),
          le_trans (le_foldr_max _ _ _ hx) (le_max_right _ _),
          le_trans (min_le_right _ _) (foldr_min_le _ _ _ hy),
          le_trans (le_foldr_max _ _ _ hy) (le_max_right _ _)⟩

lemma countP_le_countP (p q : ℝ × ℝ → Bool) (l : List (ℝ × ℝ))
    (h : ∀ a ∈ l, p a = true → q a = true) : l.countP p ≤ l.countP q := by
  induction l with
  | nil => exact le_refl 0
  | cons a t ih =>
      have ht : ∀ b ∈ t, p b = true → q b = true :=
        fun b hb => h b (List.mem_cons_of_mem _ hb)
      rw [List.countP_cons, List.countP_cons]
      by_cases hp : p a = true
      · rw [h a (List.mem_cons_self a t) hp, hp]
        simpa using ih ht
      · have hp0 : (if p a = true then 1 else 0) = 0 := by simp [hp]
        rw [hp0]
        refine le_trans (by simpa using ih ht) ?_
        by_cases hq : q a = true <;> simp [hq]

/-- The bounding box of the two `[0]`-magnitude polygons at angle `[0]`,
used by the concrete witnesses below. -/
lemma overlapBBox_zero :
    overlapBBox (toCartesian [0] [0]) (toCartesian [0] [0]) =
      some ⟨0, 0, 0, 0⟩ := by
  simp [overlapBBox, toCartesian, listMin, listMax]

/-- C6 — under a sampling outcome of exactly 10,000 points, all inside the
combined bounding box, `calculate_overlap` computes the single bounding box
spanning both polygons and returns
`100 × (points inside both) / (points inside at least one)` whenever the
latter count is positive. -/
theorem C6_overlap_formula (contains : List (ℝ × ℝ) → ℝ × ℝ → Bool)
    (values1 values2 angles : List ℝ) (samples : List (ℝ × ℝ)) (bb : BBox)
    (hbb : overlapBBox (toCartesian angles values1) (toCartesian angles values2)
      = some bb)
    (hlen : samples.length = samplePoints)
    (hin : ∀ p ∈ samples, inBBox bb p)
    (hu : 0 < samples.countP fun p =>
      contains (toCartesian angles values1) p ||
        contains (toCartesian angles values2) p) :
    (∀ p ∈ toCartesian angles values1, inBBox bb p) ∧
    (∀ p ∈ toCartesian angles values2, inBBox bb p) ∧
    calculate_overlap contains values1 values2 angles samples =
      some (100 * ((samples.countP fun p =>
          contains (toCartesian angles values1) p &&
            contains (toCartesian angles values2) p : ℕ) : ℝ) /
        ((samples.countP fun p =>
          contains (toCartesian angles values1) p ||
            contains (toCartesian angles values2) p : ℕ) : ℝ)) := by
  refine ⟨(overlapBBox_spec _ _ _ hbb).1, (overlapBBox_spec _ _ _ hbb).2, ?_⟩
  simp only [calculate_overlap, hbb, Option.map_some', if_pos hu,
    Option.some.injEq]
  ring

/-- Witness for C6: both polygons collapse to the origin, the oracle counts
every sampled point as inside both, and the estimate is `100`. -/
theorem C6_witness :
    (List.replicate samplePoints ((0 : ℝ), (0 : ℝ))).length = samplePoints ∧
    calculate_overlap (fun _ _ => true) [0] [0] [0]
      (List.replicate samplePoints ((0 : ℝ), (0 : ℝ))) = some 100 := by
  have hu : 0 < (List.replicate samplePoints ((0 : ℝ), (0 : ℝ))).countP
      fun p => (fun _ _ => true : List (ℝ × ℝ) → ℝ × ℝ → Bool)
          (toCartesian [0] [0]) p ||
        (fun _ _ => true : List (ℝ × ℝ) → ℝ × ℝ → Bool)
          (toCartesian [0] [0]) p := by
    have h : ∀ a ∈ List.replicate samplePoints ((0 : ℝ), (0 : ℝ)),
        ((fun _ _ => true : List (ℝ × ℝ) → ℝ × ℝ → Bool)
            (toCartesian [0] [0]) a ||
          (fun _ _ => true : List (ℝ × ℝ) → ℝ × ℝ → Bool)
            (toCartesian [0] [0]) a) = true := fun a _ => rfl
    rw [List.countP_eq_length.mpr h, List.length_replicate]
    decide
  have hin : ∀ p ∈ List.replicate samplePoints ((0 : ℝ), (0 : ℝ)),
      inBBox ⟨0, 0, 0, 0⟩ p := by
    intro p hp
    rw [List.eq_of_mem_replicate hp]
    exact ⟨le_refl 0, le_refl 0, le_refl 0, le_refl 0⟩
  refine ⟨List.length_replicate _ _, ?_⟩
  refine ((C6_overlap_formula (fun _ _ => true) [0] [0] [0]
    (List.replicate samplePoints ((0 : ℝ), (0 : ℝ))) ⟨0, 0, 0, 0⟩
    overlapBBox_zero (List.length_replicate _ _) hin hu).2.2).trans ?_
  have hall : ∀ (b : Bool), (List.replicate samplePoints ((0 : ℝ), (0 : ℝ))).countP
      (fun _ => b) = if b then samplePoints else 0 := by
    intro b
    cases b
    · simp
    · rw [List.countP_eq_length.mpr (fun a _ => rfl), List.length_replicate]
      simp
  rw [show (fun p => (fun _ _ => true : List (ℝ × ℝ) → ℝ × ℝ → Bool)
      (toCartesian [0] [0]) p &&
    (fun _ _ => true : List (ℝ × ℝ) → ℝ × ℝ → Bool)
      (toCartesian [0] [0]) p) = (fun _ => true) from rfl]
  rw [show (fun p => (fun _ _ => true : List (ℝ × ℝ) → ℝ × ℝ → Bool)
      (toCartesian [0] [0]) p ||
    (fun _ _ => true : List (ℝ × ℝ) → ℝ × ℝ → Bool)
      (toCartesian [0] [0]) p) = (fun _ => true) from rfl]
  rw [hall true]
  norm_num [samplePoints]

/-- C7 — whenever no sampled point lies inside either polygon (a zero union
count), `calculate_overlap` returns `0` instead of dividing by zero. -/
theorem C7_zero_union_returns_zero (contains : List (ℝ × ℝ) → ℝ × ℝ → Bool)
    (values1 values2 angles : List ℝ) (samples : List (ℝ × ℝ)) (bb : BBox)
    (hbb : overlapBBox (toCartesian angles values1) (toCartesian angles values2)
      = some bb)
    (hu : (samples.countP fun p =>
      contains (toCartesian angles values1) p ||
        contains (toCartesian angles values2) p) = 0) :
    calculate_overlap contains values1 values2 angles samples = some 0 := by
  simp only [calculate_overlap, hbb, Option.map_some', hu]
  simp

/-- Witness for C7: an oracle that rejects every point gives a zero union
count, and the overlap is reported as `0`. -/
theorem C7_witness :
    (([] : List (ℝ × ℝ)).countP fun p =>
      (fun _ _ => false : List (ℝ × ℝ) → ℝ × ℝ → Bool)
          (toCartesian [0] [0]) p ||
        (fun _ _ => false : List (ℝ × ℝ) → ℝ × ℝ → Bool)
          (toCartesian [0] [0]) p) = 0 ∧
    calculate_overlap (fun _ _ => false) [0] [0] [0] [] = some 0 :=
  ⟨rfl, C7_zero_union_returns_zero (fun _ _ => false) [0] [0] [0] []
    ⟨0, 0, 0, 0⟩ overlapBBox_zero rfl⟩

/-- C8 — whatever the polygons, the containment oracle and the sampling
outcome, a returned overlap percentage lies in `[0, 100]`: every point inside
both polygons is also inside at least one. -/
theorem C8_result_in_range (contains : List (ℝ × ℝ) → ℝ × ℝ → Bool)
    (values1 values2 angles : List ℝ) (samples : List (ℝ × ℝ)) (r : ℝ)
    (h : calculate_overlap contains values1 values2 angles samples = some r) :
    0 ≤ r ∧ r ≤ 100 := by
  simp only [calculate_overlap] at h
  cases hbb : overlapBBox (toCartesian angles values1) (toCartesian angles values2) with
  | none => rw [hbb] at h; cases h
  | some bb =>
      rw [hbb, Option.map_some', Option.some.injEq] at h
      subst h
      by_cases hu : 0 < samples.countP fun p =>
          contains (toCartesian angles values1) p ||
            contains (toCartesian angles values2) p
      · rw [if_pos hu]
        have hiu : (samples.countP fun p =>
            contains (toCartesian angles values1) p &&
              contains (toCartesian angles values2) p) ≤
            samples.countP fun p =>
              contains (toCartesian angles values1) p ||
                contains (toCartesian angles values2) p := by
          refine countP_le_countP _ _ _ ?_
          intro a _ hpq
          cases hc1 : contains (toCartesian angles values1) a with
          | true => simp [hc1]
          | false => rw [hc1] at hpq; simp at hpq
        constructor
        · positivity
        · have h1 : ((samples.countP fun p =>
              contains (toCartesian angles values1) p &&
                contains (toCartesian angles values2) p : ℕ) : ℝ) /
              ((samples.countP fun p =>
                contains (toCartesian angles values1) p ||
                  contains (toCartesian angles values2) p : ℕ) : ℝ) ≤ 1 :=
            div_le_one_of_le (by exact_mod_cast hiu) (by positivity)
          calc ((samples.countP fun p =>
                contains (toCartesian angles values1) p &&
                  contains (toCartesian angles values2) p : ℕ) : ℝ) /
                ((samples.countP fun p =>
                  contains (toCartesian angles values1) p ||
                    contains (toCartesian angles values2) p : ℕ) : ℝ) * 100
              ≤ 1 * 100 := mul_le_mul_of_nonneg_right h1 (by norm_num)
            _ = 100 := one_mul 100
      · rw [if_neg hu]
        norm_num

/-- Evaluation of `calculate_overlap` on a single sampled point accepted by
the oracle for both polygons, used by the witness of the range property. -/
lemma calculate_overlap_single :
    calculate_overlap (fun _ _ => true) [0] [0] [0] [((0 : ℝ), (0 : ℝ))] =
      some 100 := by
  simp only [calculate_overlap, overlapBBox_zero, Option.map_some']
  norm_num [List.countP_cons]

/-- Witness for C8 at a concrete evaluated overlap of `100`. -/
theorem C8_witness : (0 : ℝ) ≤ 100 ∧ (100 : ℝ) ≤ 100 :=
  C8_result_in_range (fun _ _ => true) [0] [0] [0] [((0 : ℝ), (0 : ℝ))] 100
    calculate_overlap_single

end BirdPlot
